import Mathlib

/-!
Verification of the `tasks_integration` custom component
(`coordinator.py`, `todo.py`, `config_flow.py`, `const.py`).

The source is shallowly embedded: JSON dictionaries become structures with
`Option` fields for keys that may be absent, Python string truthiness is
made explicit, and each coroutine that performs remote I/O is embedded as a
pure function from its inputs (cached data plus the statuses/bodies the
remote would answer) to the list of HTTP calls it issues and its
raised-or-returned outcome.
-/

deriving instance DecidableEq for Except

namespace TasksIntegration

/-- Python truthiness of an optional string field: `None` and `""` are falsy. -/
def pyTruthy : Option String → Bool
  | none => false
  | some s => s != ""

/-- A task object of the remote service's JSON
(`{id, title, description?, dueDate?, projectId, completedAt?, deletedAt?, tagIds}`). -/
structure Task where
  id : String
  title : String := ""
  description : Option String := none
  dueDate : Option String := none
  projectId : Option String := none
  completedAt : Option String := none
  deletedAt : Option String := none
  tagIds : List String := []
deriving DecidableEq

/-- A project object (`{id, name, parentId?, deletedAt?}`). -/
structure Project where
  id : String
  name : String := ""
  parentId : Option String := none
  deletedAt : Option String := none
deriving DecidableEq

/-- A tag object (`{id, name, color}`). -/
structure Tag where
  id : String
  name : String := ""
  color : String := ""
deriving DecidableEq

/-- A user object; only passed through by the coordinator. -/
structure User where
  id : String
  name : String := ""
deriving DecidableEq

/-- The parsed JSON body of `GET {api}/data`.  Each key may be absent
(`data.get(key, [])` in the source supplies the default). -/
structure RemoteData where
  tasks : Option (List Task) := none
  projects : Option (List Project) := none
  tags : Option (List Tag) := none
  users : Option (List User) := none
deriving DecidableEq

/-- The dictionary returned by `TasksCoordinator._async_update_data`
(the coordinator's published snapshot). -/
structure Snapshot where
  tasks : List Task
  projects : List Project
  tags : List Tag
  users : List User
deriving DecidableEq

/-- Outcome of the `session.get` on `{api}/api/data`, as seen by the
`try` block of `_async_update_data`:
* `response status data` — an HTTP response arrived (body already parsed;
  a JSON-parse failure is an `aiohttp.ContentTypeError`, i.e. a
  `ClientError`, so it is folded into `clientError`);
* `clientError msg` — any `aiohttp.ClientError` (DNS failure, connection
  refused, ...);
* `timeoutError` — the 10-second `ClientTimeout` expired, raising
  `asyncio.TimeoutError`, which is *not* an `aiohttp.ClientError`. -/
inductive FetchOutcome
  | response (status : Nat) (data : RemoteData)
  | clientError (msg : String)
  | timeoutError
deriving DecidableEq

/-- An exception escaping `_async_update_data`: either the typed
`UpdateFailed` raised by the method itself, or the uncaught
`asyncio.TimeoutError`. -/
inductive PyError
  | updateFailed (msg : String)
  | timeoutErr
deriving DecidableEq

/-- The filter predicate of `_async_update_data`:
`t.get("projectId") in self.selected_projects`.  A task without a
`projectId` yields `None`, which is never a member of the configured
id list. -/
def taskSelected (selected : List String) (t : Task) : Bool :=
  match t.projectId with
  | some pid => selected.contains pid
  | none => false

/-- `TasksCoordinator._async_update_data` (coordinator.py lines 43-67):
non-200 status raises `UpdateFailed`; on 200 the tasks are filtered by
selected project and the remaining fields are passed through with `[]`
defaults; `aiohttp.ClientError` is re-raised as `UpdateFailed`;
`asyncio.TimeoutError` is not caught. -/
def asyncUpdateData (selected : List String) (outcome : FetchOutcome) :
    Except PyError Snapshot :=
  match outcome with
  | .response status data =>
      if status ≠ 200 then
        .error (.updateFailed ("Error fetching data: " ++ toString status))
      else
        .ok
          { tasks := (data.tasks.getD []).filter (taskSelected selected)
            projects := data.projects.getD []
            tags := data.tags.getD []
            users := data.users.getD [] }
  | .clientError msg =>
      .error (.updateFailed ("Error communicating with API: " ++ msg))
  | .timeoutError => .error .timeoutErr

/-- Modelled from the spec: the refresh loop of the host's update
coordinator (the `DataUpdateCoordinator` base class, which is not under
`src/`) keeps the previous snapshot when a refresh fails and keeps the
periodic loop running ("On failure, keep the previous Snapshot ... and do
not crash the periodic loop").  Returns the new cache and whether the
loop continues. -/
def refreshStep (cache : Option Snapshot) (selected : List String)
    (outcome : FetchOutcome) : Option Snapshot × Bool :=
  match asyncUpdateData selected outcome with
  | .ok snap => (some snap, true)
  | .error _ => (cache, true)

/-- An HTTP request as constructed at a single call site of the source:
its method, the URL f-string, and the `timeout=` argument (in seconds)
passed to the session call, if any. -/
structure HttpRequest where
  method : String
  url : String
  timeoutSeconds : Option Nat
deriving DecidableEq

/-- The snapshot fetch of `_async_update_data`:
`session.get(url, timeout=aiohttp.ClientTimeout(total=10))`. -/
def fetchSnapshotRequest (apiUrl token : String) : HttpRequest :=
  { method := "GET"
    url := apiUrl ++ "/api/data?token=" ++ token ++ "&includeCompleted=true"
    timeoutSeconds := some 10 }

/-- The task creation of `async_create_todo_item`:
`session.post(url, json=data)` — no `timeout=` argument. -/
def createTaskRequest (apiUrl token : String) : HttpRequest :=
  { method := "POST"
    url := apiUrl ++ "/api/tasks?token=" ++ token
    timeoutSeconds := none }

/-- The field update of `async_update_todo_item`:
`session.put(url, json=data)` — no `timeout=` argument. -/
def updateTaskRequest (apiUrl token uid : String) : HttpRequest :=
  { method := "PUT"
    url := apiUrl ++ "/api/tasks/" ++ uid ++ "?token=" ++ token
    timeoutSeconds := none }

/-- The completion call of `async_update_todo_item`:
`session.post(complete_url)` — no `timeout=` argument. -/
def completeTaskRequest (apiUrl token uid : String) : HttpRequest :=
  { method := "POST"
    url := apiUrl ++ "/api/tasks/" ++ uid ++ "/complete?token=" ++ token
    timeoutSeconds := none }

/-- The uncompletion call of `async_update_todo_item`:
`session.post(uncomplete_url)` — no `timeout=` argument. -/
def uncompleteTaskRequest (apiUrl token uid : String) : HttpRequest :=
  { method := "POST"
    url := apiUrl ++ "/api/tasks/" ++ uid ++ "/uncomplete?token=" ++ token
    timeoutSeconds := none }

/-- The tag creation of `_get_or_create_user_tag`:
`session.post(url, json=data)` — no `timeout=` argument. -/
def createTagRequest (apiUrl token : String) : HttpRequest :=
  { method := "POST"
    url := apiUrl ++ "/api/tags?token=" ++ token
    timeoutSeconds := none }

/-- The host's to-do item status (`homeassistant.components.todo.TodoItemStatus`). -/
inductive TodoStatus
  | needsAction
  | completed
deriving DecidableEq

/-- The host's to-do item as handed to the entity
(`uid, summary, status, due, description`; every field may be `None`
except that the mutation paths read `uid` unconditionally). -/
structure TodoItem where
  uid : String
  summary : Option String := none
  status : Option TodoStatus := none
  due : Option String := none
  description : Option String := none
deriving DecidableEq

/-- The JSON body of the `POST {api}/tasks` request built by
`async_create_todo_item`. -/
structure CreateTaskBody where
  title : Option String
  description : String
  dueDate : Option String
  priority : Nat
  projectId : String
  tagIds : List String
  source : String
deriving DecidableEq

/-- A remote API call issued by the mutation paths of `todo.py`,
identified by endpoint and payload. -/
inductive ApiCall
  | completeTask (uid : String)
  | uncompleteTask (uid : String)
  | updateTask (uid : String) (title : Option String) (description : Option String)
      (dueDate : Option String)
  | createTask (body : CreateTaskBody)
  | createTag (name : String) (color : String)
deriving DecidableEq

/-- Log lines emitted (via `_LOGGER.error`) by `async_update_todo_item`. -/
inductive UpdateLog
  | failedComplete
  | failedUncomplete
  | failedUpdate
deriving DecidableEq

/-- The HTTP statuses with which the remote answers the (up to three)
requests of one `async_update_todo_item` run. -/
structure UpdateEnv where
  completeStatus : Nat := 200
  uncompleteStatus : Nat := 200
  putStatus : Nat := 200
deriving DecidableEq

/-- `next((t for t in self.coordinator.data.get("tasks", []) if t["id"] == item.uid), None)`. -/
def findTask (tasks : List Task) (uid : String) : Option Task :=
  tasks.find? (fun t => t.id == uid)

/-- What one run of `async_update_todo_item` produces: the remote calls
in the order they are issued, the error-log lines, and the
returned-or-raised outcome (`Exception("Failed to update task")`). -/
structure UpdateRun where
  calls : List ApiCall
  logs : List UpdateLog
  result : Except String Unit
deriving DecidableEq

/-- `TasksTodoListEntity.async_update_todo_item` (todo.py lines 137-177):
when the desired status is `COMPLETED` and the cached task exists without
a (truthy) `completedAt`, POST `/complete` (non-200 only logged);
when the desired status is not `COMPLETED` and the cached task exists with
a truthy `completedAt`, POST `/uncomplete` (non-200 only logged);
in every case PUT the title/description/dueDate fields, raising the
generic exception exactly when that PUT is non-200. -/
def asyncUpdateTodoItem (cachedTasks : List Task) (env : UpdateEnv)
    (item : TodoItem) : UpdateRun :=
  let task := findTask cachedTasks item.uid
  let trans : List ApiCall × List UpdateLog :=
    if item.status == some TodoStatus.completed then
      match task with
      | some t =>
          if !pyTruthy t.completedAt then
            ([ApiCall.completeTask item.uid],
             if env.completeStatus ≠ 200 then [UpdateLog.failedComplete] else [])
          else ([], [])
      | none => ([], [])
    else
      match task with
      | some t =>
          if pyTruthy t.completedAt then
            ([ApiCall.uncompleteTask item.uid],
             if env.uncompleteStatus ≠ 200 then [UpdateLog.failedUncomplete] else [])
          else ([], [])
      | none => ([], [])
  let putCall := ApiCall.updateTask item.uid item.summary item.description item.due
  if env.putStatus ≠ 200 then
    { calls := trans.1 ++ [putCall]
      logs := trans.2 ++ [UpdateLog.failedUpdate]
      result := .error "Failed to update task" }
  else
    { calls := trans.1 ++ [putCall]
      logs := trans.2
      result := .ok () }

/-- Python's `str.lower()`, character by character. -/
def pyLower (s : String) : String :=
  String.mk (s.data.map Char.toLower)

/-- Worker for `pySplitWhitespace`: `cur` holds the characters of the
current token in reverse. -/
def pySplitCharsAux : List Char → List Char → List String
  | [], cur => if cur = [] then [] else [String.mk cur.reverse]
  | c :: cs, cur =>
      if c = ' ' then
        if cur = [] then pySplitCharsAux cs []
        else String.mk cur.reverse :: pySplitCharsAux cs []
      else pySplitCharsAux cs (c :: cur)

/-- Python's `str.split()` restricted to the space character: split on
runs of `' '`, producing no empty tokens. -/
def pySplitWhitespace (s : String) : List String :=
  pySplitCharsAux s.data []

/-- The acting-user name resolution of `async_create_todo_item`
(todo.py lines 104-112): `user.name.split()[0] if user.name else None`.
`none` input means no context user or a user without a name; a truthy
name consisting only of spaces makes `split()[0]` raise `IndexError`. -/
def firstNameOf (name : Option String) : Except String (Option String) :=
  match name with
  | none => .ok none
  | some s =>
      if pyTruthy (some s) then
        match pySplitWhitespace s with
        | [] => .error "IndexError"
        | w :: _ => .ok (some w)
      else .ok none

/-- The remote's answer to the tag-creation POST of
`_get_or_create_user_tag`: its HTTP status and the `id` field of the
parsed body (`result.get("id")`). -/
structure TagCreateEnv where
  createStatus : Nat := 201
  createdId : Option String := none
deriving DecidableEq

/-- `TasksTodoListEntity._get_or_create_user_tag` (todo.py lines 198-221):
case-insensitive name lookup in the coordinator's cached tags; on a hit
return the cached id with no remote call; on a miss POST `/api/tags` with
the default color and return `result.get("id")` on 201, `None` otherwise. -/
def getOrCreateUserTag (cachedTags : List Tag) (env : TagCreateEnv)
    (userName : String) : List ApiCall × Option String :=
  match cachedTags.find? (fun t => pyLower t.name == pyLower userName) with
  | some t => ([], some t.id)
  | none =>
      ([ApiCall.createTag userName "#4a7c59"],
       if env.createStatus == 201 then env.createdId else none)

/-- The remote's answers during one `async_create_todo_item` run. -/
structure CreateEnv where
  tagEnv : TagCreateEnv := {}
  createTaskStatus : Nat := 201
deriving DecidableEq

/-- `TasksTodoListEntity.async_create_todo_item` (todo.py lines 101-135):
resolve the acting user's first name; if truthy, look up / create the user
tag; then POST the task with default priority 4, the entity's project id,
and `[tag_id] if tag_id else []`; non-201 raises the generic exception. -/
def asyncCreateTodoItem (cachedTags : List Tag) (env : CreateEnv)
    (rawUserName : Option String) (projectId : String) (item : TodoItem) :
    List ApiCall × Except String Unit :=
  match firstNameOf rawUserName with
  | .error e => ([], .error e)
  | .ok userName =>
      let tagStep : List ApiCall × Option String :=
        match userName with
        | some n =>
            if pyTruthy (some n) then getOrCreateUserTag cachedTags env.tagEnv n
            else ([], none)
        | none => ([], none)
      let body : CreateTaskBody :=
        { title := item.summary
          description := item.description.getD ""
          dueDate := item.due
          priority := 4
          projectId := projectId
          tagIds :=
            match tagStep.2 with
            | some i => if pyTruthy (some i) then [i] else []
            | none => []
          source := "api" }
      let calls := tagStep.1 ++ [ApiCall.createTask body]
      if env.createTaskStatus ≠ 201 then (calls, .error "Failed to create task")
      else (calls, .ok ())

/-- Stable insertion of a project into a name-sorted list, placing the
inserted element before later elements of equal name (the stability
Python's `sorted` guarantees). -/
def insertByName (p : Project) : List Project → List Project
  | [] => [p]
  | q :: qs => if p.name ≤ q.name then p :: q :: qs else q :: insertByName p qs

/-- `sorted(filtered, key=lambda x: x.get("name", ""))`: a stable sort of
projects by name. -/
def sortByName : List Project → List Project
  | [] => []
  | p :: ps => insertByName p (sortByName ps)

/-- The `"  " * indent` indentation string. -/
def indentStr (n : Nat) : String :=
  String.join (List.replicate n "  ")

/-- `project_options[key] = label` on a Python dict rendered as an ordered
association list: an existing key keeps its position and gets the new
value, a new key is appended. -/
def dictInsert (acc : List (String × String)) (k v : String) :
    List (String × String) :=
  if acc.any (fun e => e.1 == k) then
    acc.map (fun e => if e.1 == k then (k, v) else e)
  else acc ++ [(k, v)]

mutual

/-- `build_hierarchy` of `async_step_select_projects`
(config_flow.py lines 100-108), with an explicit recursion-depth fuel:
`none` means the Python recursion would still be running (or would have
exceeded the interpreter's recursion limit) after `fuel` nested calls.
One unit of fuel is one nesting level, exactly as in the source:
filter the projects to the non-deleted children of `parent_id`, sort them
by name, and for each one record its indented label and recurse with its
id as the new parent. -/
def buildHierarchy (projects : List Project) (parentId : Option String)
    (indent : Nat) (acc : List (String × String)) (fuel : Nat) :
    Option (List (String × String)) :=
  match fuel with
  | 0 => none
  | f + 1 =>
      buildHierarchyList projects
        (sortByName (projects.filter
          (fun p => p.parentId == parentId && !pyTruthy p.deletedAt)))
        indent acc f
termination_by (fuel, 0)

/-- The `for project in sorted(filtered, ...)` loop body of
`build_hierarchy`: record the project's option entry, recurse into its
children, then continue with the remaining siblings. -/
def buildHierarchyList (projects : List Project) (children : List Project)
    (indent : Nat) (acc : List (String × String)) (fuel : Nat) :
    Option (List (String × String)) :=
  match children with
  | [] => some acc
  | p :: ps =>
      match buildHierarchy projects (some p.id) (indent + 1)
          (dictInsert acc p.id (indentStr indent ++ p.name)) fuel with
      | none => none
      | some acc2 => buildHierarchyList projects ps indent acc2 fuel
termination_by (fuel, children.length + 1)

end

/-- Modelled from the spec: the request-coalescing state of the
coordinator's refresh entry point.  The single-flight discipline itself
lives in the inherited `DataUpdateCoordinator.async_request_refresh`
(host framework, not under `src/`); the spec describes it as "if a
refresh is already in flight, the caller's request is satisfied by that
in-flight refresh's result rather than launching a duplicate".
`fetchCalls` counts `fetchSnapshot` calls made, `waiters` the requesters
attached to the in-flight call, `delivered` the requesters that have
observed a completed call's result. -/
structure CoalesceState where
  inFlight : Bool := false
  waiters : Nat := 0
  fetchCalls : Nat := 0
  delivered : Nat := 0
deriving DecidableEq

/-- An event at the coalescing refresh entry point: a refresh request
arriving (from the periodic timer, the notification channel's message
handler, or a consumer), or the in-flight fetch completing. -/
inductive RefreshEvent
  | request
  | complete
deriving DecidableEq

/-- Modelled from the spec: one step of the coalescing discipline.
A request while a fetch is in flight only joins the waiters; a request
while idle starts exactly one new fetch; completion hands the single
call's result to every waiter. -/
def coalesceStep (s : CoalesceState) : RefreshEvent → CoalesceState
  | .request =>
      if s.inFlight then { s with waiters := s.waiters + 1 }
      else
        { s with
            inFlight := true
            waiters := s.waiters + 1
            fetchCalls := s.fetchCalls + 1 }
  | .complete =>
      if s.inFlight then
        { s with
            inFlight := false
            waiters := 0
            delivered := s.delivered + s.waiters }
      else s

/-- Run a sequence of refresh events. -/
def runEvents (s : CoalesceState) (es : List RefreshEvent) : CoalesceState :=
  es.foldl coalesceStep s

/-- The coordinator state visible to `async_shutdown`.
`wsTaskRunning` is whether `self._ws_task` holds a live task, `wsOpen`
whether `self._ws` holds an open connection.  `timerScheduled` is
modelled from the spec: the 30-second periodic refresh scheduling owned
by the `DataUpdateCoordinator` base class (not under `src/`), which the
base class's own shutdown would clear. -/
structure CoordinatorState where
  wsTaskRunning : Bool
  wsOpen : Bool
  timerScheduled : Bool
deriving DecidableEq

/-- `TasksCoordinator.async_shutdown` (coordinator.py lines 88-98):
cancel `self._ws_task` and await it, swallowing the resulting
`asyncio.CancelledError` (`except asyncio.CancelledError: pass`), then
close `self._ws` if set.  The override never invokes the base class's
shutdown, so the periodic scheduling is untouched.  Returns the new
state and the exception propagated to the caller, if any. -/
def asyncShutdown (s : CoordinatorState) : CoordinatorState × Option String :=
  let s1 :=
    if s.wsTaskRunning then { s with wsTaskRunning := false } else s
  let s2 :=
    if s1.wsOpen then { s1 with wsOpen := false } else s1
  (s2, none)

/-! ## Concrete sample data used by witnesses -/

/-- A task in the selected project `p1`. -/
def demoTask1 : Task := { id := "t1", title := "Alpha", projectId := some "p1" }

/-- A task outside the selection, in project `p2`. -/
def demoTask2 : Task := { id := "t2", title := "Beta", projectId := some "p2" }

/-- A remote response with both tasks and with `tags`/`users` omitted. -/
def demoData : RemoteData :=
  { tasks := some [demoTask1, demoTask2], projects := some [], tags := none, users := none }

/-- The snapshot the coordinator publishes for `demoData` with selection `["p1"]`. -/
def demoSnap : Snapshot :=
  { tasks := [demoTask1], projects := [], tags := [], users := [] }

/-! ## Claims -/

/-- C1: on every successful refresh the published snapshot's `tasks` is
exactly the remote task list filtered to the configured project selection
(no task outside the selection appears, none inside it is dropped), and
`projects`, `tags`, `users` are passed through unmodified with `[]`
substituted for omitted fields. -/
theorem C1_snapshot_filter (selected : List String) (data : RemoteData)
    (snap : Snapshot)
    (h : asyncUpdateData selected (FetchOutcome.response 200 data) = Except.ok snap) :
    snap.tasks = (data.tasks.getD []).filter (taskSelected selected) ∧
    (∀ t, t ∈ snap.tasks ↔ t ∈ data.tasks.getD [] ∧ taskSelected selected t = true) ∧
    snap.projects = data.projects.getD [] ∧
    snap.tags = data.tags.getD [] ∧
    snap.users = data.users.getD [] := by
  have h' : ({ tasks := (data.tasks.getD []).filter (taskSelected selected)
               projects := data.projects.getD []
               tags := data.tags.getD []
               users := data.users.getD [] } : Snapshot) = snap := by
    simpa [asyncUpdateData] using h
  subst h'
  refine ⟨rfl, ?_, rfl, rfl, rfl⟩
  intro t
  simp [List.mem_filter]

/-- Witness for C1: with selection `["p1"]` and `demoData`, the published
tasks are exactly the filtered remote list. -/
theorem C1_witness :
    demoSnap.tasks = (demoData.tasks.getD []).filter (taskSelected ["p1"]) :=
  (C1_snapshot_filter ["p1"] demoData demoSnap (by decide)).1

/-- C4 counterexample: when the 10-second timeout expires, the raised
`asyncio.TimeoutError` is not an `aiohttp.ClientError`, so
`_async_update_data` lets it escape instead of raising `UpdateFailed`. -/
theorem C4_counterexample :
    asyncUpdateData [] FetchOutcome.timeoutError = Except.error PyError.timeoutErr ∧
    ∀ msg, PyError.timeoutErr ≠ PyError.updateFailed msg := by
  refine ⟨rfl, ?_⟩
  intro msg h
  cases h

/-- C4 (amended): a non-200 status and every `aiohttp.ClientError`
(DNS failure, connection refused) surface as `UpdateFailed`; the timeout
expiry instead escapes as an uncaught `asyncio.TimeoutError`; and on any
failing outcome the (spec-modelled) refresh loop keeps the previous
snapshot unchanged and continues. -/
theorem C4_failures_typed (selected : List String) (cache : Option Snapshot) :
    (∀ status data, status ≠ 200 →
      asyncUpdateData selected (FetchOutcome.response status data) =
        Except.error (PyError.updateFailed ("Error fetching data: " ++ toString status))) ∧
    (∀ msg, asyncUpdateData selected (FetchOutcome.clientError msg) =
        Except.error (PyError.updateFailed ("Error communicating with API: " ++ msg))) ∧
    asyncUpdateData selected FetchOutcome.timeoutError = Except.error PyError.timeoutErr ∧
    (∀ outcome e, asyncUpdateData selected outcome = Except.error e →
      refreshStep cache selected outcome = (cache, true)) := by
  refine ⟨?_, fun msg => rfl, rfl, ?_⟩
  · intro status data hst
    simp [asyncUpdateData, hst]
  · intro outcome e he
    simp [refreshStep, he]

/-- Witness for C4 (amended) at a concrete 500 response and a concrete
client error with a cached snapshot. -/
theorem C4_witness :
    asyncUpdateData [] (FetchOutcome.response 500 {}) =
      Except.error (PyError.updateFailed ("Error fetching data: " ++ toString 500)) ∧
    refreshStep (some demoSnap) [] (FetchOutcome.clientError "dns") =
      (some demoSnap, true) := by
  refine ⟨(C4_failures_typed [] none).1 500 {} (by decide), ?_⟩
  exact (C4_failures_typed [] (some demoSnap)).2.2.2 (FetchOutcome.clientError "dns")
    (PyError.updateFailed ("Error communicating with API: " ++ "dns")) rfl

/-- C8 counterexample: the task-creation POST of `async_create_todo_item`
passes no `timeout=` argument, so it is not bounded by 10 seconds. -/
theorem C8_counterexample :
    (createTaskRequest "http://h" "tok").timeoutSeconds = none ∧
    (none : Option Nat) ≠ some 10 := by
  refine ⟨rfl, ?_⟩
  intro h
  cases h

/-- C8 (amended): only the snapshot fetch is issued with the explicit
10-second timeout; the createTask, updateTask, completeTask,
uncompleteTask and createTag requests pass no explicit timeout and fall
back to the HTTP client library's default. -/
theorem C8_timeout_only_fetch (apiUrl token uid : String) :
    (fetchSnapshotRequest apiUrl token).timeoutSeconds = some 10 ∧
    (createTaskRequest apiUrl token).timeoutSeconds = none ∧
    (updateTaskRequest apiUrl token uid).timeoutSeconds = none ∧
    (completeTaskRequest apiUrl token uid).timeoutSeconds = none ∧
    (uncompleteTaskRequest apiUrl token uid).timeoutSeconds = none ∧
    (createTagRequest apiUrl token).timeoutSeconds = none :=
  ⟨rfl, rfl, rfl, rfl, rfl, rfl⟩

/-- `runEvents` distributes over `::` (one fold step). -/
theorem runEvents_cons (s : CoalesceState) (e : RefreshEvent)
    (es : List RefreshEvent) :
    runEvents s (e :: es) = runEvents (coalesceStep s e) es := rfl

/-- While a fetch is in flight, every further request only joins the
waiters: the state after `n` requests has the same fetch count. -/
theorem runEvents_replicate_request (n : Nat) (w f d : Nat) :
    runEvents { inFlight := true, waiters := w, fetchCalls := f, delivered := d }
      (List.replicate n RefreshEvent.request) =
      { inFlight := true, waiters := w + n, fetchCalls := f, delivered := d } := by
  induction n generalizing w with
  | zero => simp [runEvents]
  | succ k ih =>
      rw [List.replicate_succ, runEvents_cons]
      have hstep : coalesceStep
          { inFlight := true, waiters := w, fetchCalls := f, delivered := d }
          RefreshEvent.request =
          { inFlight := true, waiters := w + 1, fetchCalls := f, delivered := d } := by
        simp [coalesceStep]
      rw [hstep, ih]
      congr 1
      omega

/-- C2: if `n` further refresh requests arrive while one fetch is in
flight (started by the first request), exactly one `fetchSnapshot` call
is made in total, all `n + 1` requesters observe that call's result, and
no event can start a second fetch while one is in flight. -/
theorem C2_single_flight (n : Nat) :
    (runEvents (coalesceStep {} RefreshEvent.request)
      (List.replicate n RefreshEvent.request ++ [RefreshEvent.complete])).fetchCalls = 1 ∧
    (runEvents (coalesceStep {} RefreshEvent.request)
      (List.replicate n RefreshEvent.request ++ [RefreshEvent.complete])).delivered = n + 1 ∧
    (runEvents (coalesceStep {} RefreshEvent.request)
      (List.replicate n RefreshEvent.request ++ [RefreshEvent.complete])).inFlight = false ∧
    (∀ s : CoalesceState, s.inFlight = true →
      ∀ e, (coalesceStep s e).fetchCalls = s.fetchCalls) := by
  have h1 : coalesceStep ({} : CoalesceState) RefreshEvent.request =
      { inFlight := true, waiters := 1, fetchCalls := 1, delivered := 0 } := rfl
  have key : runEvents (coalesceStep {} RefreshEvent.request)
      (List.replicate n RefreshEvent.request ++ [RefreshEvent.complete]) =
      { inFlight := false, waiters := 0, fetchCalls := 1, delivered := 1 + n } := by
    rw [h1]
    unfold runEvents
    rw [List.foldl_append]
    have h2 := runEvents_replicate_request n 1 1 0
    unfold runEvents at h2
    rw [h2]
    simp [coalesceStep]
  refine ⟨by rw [key], by rw [key]; simp [Nat.add_comm], by rw [key], ?_⟩
  intro s hs e
  cases e <;> simp [coalesceStep, hs]

/-- Witness for C2 with three concurrent extra requests and a concrete
in-flight state. -/
theorem C2_witness :
    (runEvents (coalesceStep {} RefreshEvent.request)
      (List.replicate 3 RefreshEvent.request ++ [RefreshEvent.complete])).fetchCalls = 1 ∧
    (coalesceStep { inFlight := true, waiters := 2, fetchCalls := 1, delivered := 0 }
      RefreshEvent.request).fetchCalls = 1 := by
  refine ⟨(C2_single_flight 3).1, ?_⟩
  have h := (C2_single_flight 3).2.2.2
    { inFlight := true, waiters := 2, fetchCalls := 1, delivered := 0 } rfl
    RefreshEvent.request
  simpa using h

/-- C5: `async_shutdown` cancels the channel task, closes any open
connection, and returns normally (no exception — in particular the
`CancelledError` from awaiting the cancelled task is swallowed) whether
or not a connection is open; but it leaves the periodic refresh
scheduling untouched, since the override never stops the timer. -/
theorem C5_shutdown_keeps_timer (s : CoordinatorState) :
    (asyncShutdown s).2 = none ∧
    (asyncShutdown s).1.wsTaskRunning = false ∧
    (asyncShutdown s).1.wsOpen = false ∧
    (asyncShutdown s).1.timerScheduled = s.timerScheduled := by
  cases s with
  | mk wt wo ts =>
      cases wt <;> cases wo <;> simp [asyncShutdown]

/-- C3: for an update whose uid matches a cached task, a `completeTask`
call is issued exactly when the desired status is completed and the
cached task has no `completedAt` (and then exactly once, before the field
update); symmetrically `uncompleteTask` is issued exactly when the
desired status is not completed and the cached task has `completedAt`;
the field update is always issued. -/
theorem C3_completion_transition (cachedTasks : List Task) (env : UpdateEnv)
    (item : TodoItem) (t : Task) (h : findTask cachedTasks item.uid = some t) :
    (item.status = some TodoStatus.completed → pyTruthy t.completedAt = true →
      (asyncUpdateTodoItem cachedTasks env item).calls =
        [ApiCall.updateTask item.uid item.summary item.description item.due]) ∧
    (item.status = some TodoStatus.completed → pyTruthy t.completedAt = false →
      (asyncUpdateTodoItem cachedTasks env item).calls =
        [ApiCall.completeTask item.uid,
         ApiCall.updateTask item.uid item.summary item.description item.due]) ∧
    (item.status ≠ some TodoStatus.completed → pyTruthy t.completedAt = false →
      (asyncUpdateTodoItem cachedTasks env item).calls =
        [ApiCall.updateTask item.uid item.summary item.description item.due]) ∧
    (item.status ≠ some TodoStatus.completed → pyTruthy t.completedAt = true →
      (asyncUpdateTodoItem cachedTasks env item).calls =
        [ApiCall.uncompleteTask item.uid,
         ApiCall.updateTask item.uid item.summary item.description item.due]) := by
  refine ⟨?_, ?_, ?_, ?_⟩ <;> intro h1 h2
  · by_cases hp : env.putStatus = 200 <;>
      simp [asyncUpdateTodoItem, h, h1, h2, hp]
  · by_cases hp : env.putStatus = 200 <;>
    by_cases hc : env.completeStatus = 200 <;>
      simp [asyncUpdateTodoItem, h, h1, h2, hp, hc]
  · have h1' : (item.status == some TodoStatus.completed) = false := by
      simp [h1]
    by_cases hp : env.putStatus = 200 <;>
      simp [asyncUpdateTodoItem, h, h1', h2, hp]
  · have h1' : (item.status == some TodoStatus.completed) = false := by
      simp [h1]
    by_cases hp : env.putStatus = 200 <;>
    by_cases hu : env.uncompleteStatus = 200 <;>
      simp [asyncUpdateTodoItem, h, h1', h2, hp, hu]

/-- Witness for C3: a needs-action cached task updated to completed
issues exactly one `completeTask` followed by the field update. -/
theorem C3_witness :
    (asyncUpdateTodoItem [{ id := "t1", title := "Alpha" }] {}
      { uid := "t1", summary := some "Alpha", status := some TodoStatus.completed }).calls =
      [ApiCall.completeTask "t1",
       ApiCall.updateTask "t1" (some "Alpha") none none] :=
  (C3_completion_transition [{ id := "t1", title := "Alpha" }] {}
    { uid := "t1", summary := some "Alpha", status := some TodoStatus.completed }
    { id := "t1", title := "Alpha" } (by decide)).2.1 (by decide) (by decide)

/-- C9: for an update whose uid matches no cached task, no
`completeTask`/`uncompleteTask` call is issued and no error is raised
for the missing uid: the field update is still sent, and the run
succeeds whenever that PUT answers 200. -/
theorem C9_unknown_uid_skips_transition (cachedTasks : List Task)
    (env : UpdateEnv) (item : TodoItem)
    (h : findTask cachedTasks item.uid = none) :
    (asyncUpdateTodoItem cachedTasks env item).calls =
      [ApiCall.updateTask item.uid item.summary item.description item.due] ∧
    (env.putStatus = 200 →
      (asyncUpdateTodoItem cachedTasks env item).result = Except.ok ()) := by
  constructor
  · cases hbs : (item.status == some TodoStatus.completed) <;>
    by_cases hp : env.putStatus = 200 <;>
      simp [asyncUpdateTodoItem, h, hbs, hp]
  · intro hp
    cases hbs : (item.status == some TodoStatus.completed) <;>
      simp [asyncUpdateTodoItem, h, hbs, hp]

/-- Witness for C9: updating an unknown uid against a cache holding an
unrelated task issues only the field update and succeeds. -/
theorem C9_witness :
    (asyncUpdateTodoItem [{ id := "t1", title := "Alpha" }] {}
      { uid := "ghost", status := some TodoStatus.completed }).calls =
      [ApiCall.updateTask "ghost" none none none] :=
  (C9_unknown_uid_skips_transition [{ id := "t1", title := "Alpha" }] {}
    { uid := "ghost", status := some TodoStatus.completed } (by decide)).1

/-- C10: the field update is issued on every run; the run succeeds if and
only if the PUT answers 200 (a failing completion call alone never aborts
the run or makes it fail); a non-200 completion/uncompletion answer is
recorded in the log whenever such a call was issued. -/
theorem C10_transition_failure_nonfatal (cachedTasks : List Task)
    (env : UpdateEnv) (item : TodoItem) :
    (ApiCall.updateTask item.uid item.summary item.description item.due ∈
      (asyncUpdateTodoItem cachedTasks env item).calls) ∧
    ((asyncUpdateTodoItem cachedTasks env item).result = Except.ok () ↔
      env.putStatus = 200) ∧
    (env.completeStatus ≠ 200 →
      ApiCall.completeTask item.uid ∈ (asyncUpdateTodoItem cachedTasks env item).calls →
      UpdateLog.failedComplete ∈ (asyncUpdateTodoItem cachedTasks env item).logs) ∧
    (env.uncompleteStatus ≠ 200 →
      ApiCall.uncompleteTask item.uid ∈ (asyncUpdateTodoItem cachedTasks env item).calls →
      UpdateLog.failedUncomplete ∈ (asyncUpdateTodoItem cachedTasks env item).logs) := by
  cases hT : findTask cachedTasks item.uid <;>
    cases hbs : (item.status == some TodoStatus.completed) <;>
    by_cases hp : env.putStatus = 200 <;>
    simp [asyncUpdateTodoItem, hT, hbs, hp] <;>
    split_ifs <;>
    simp_all

/-- Witness for C10: a failed completion call (500) is logged while the
field update still succeeds. -/
theorem C10_witness :
    ((asyncUpdateTodoItem [{ id := "t1" }] { completeStatus := 500 }
      { uid := "t1", status := some TodoStatus.completed }).result =
      Except.ok ()) ∧
    UpdateLog.failedComplete ∈
      (asyncUpdateTodoItem [{ id := "t1" }] { completeStatus := 500 }
        { uid := "t1", status := some TodoStatus.completed }).logs := by
  have h := C10_transition_failure_nonfatal [{ id := "t1" }] { completeStatus := 500 }
    { uid := "t1", status := some TodoStatus.completed }
  exact ⟨h.2.1.mpr (by decide), h.2.2.1 (by decide) (by decide)⟩

/-- The `POST {api}/tasks` body `async_create_todo_item` builds for a
given project, item and resolved tag-id list. -/
def createdBody (projectId : String) (item : TodoItem) (tagIds : List String) :
    CreateTaskBody :=
  { title := item.summary
    description := item.description.getD ""
    dueDate := item.due
    priority := 4
    projectId := projectId
    tagIds := tagIds
    source := "api" }

/-- Every token produced by the splitter is a nonempty string. -/
theorem pySplitCharsAux_ne_empty :
    ∀ cs cur, ∀ t ∈ pySplitCharsAux cs cur, t ≠ "" := by
  intro cs
  induction cs with
  | nil =>
      intro cur t ht
      unfold pySplitCharsAux at ht
      by_cases hcur : cur = []
      · simp [hcur] at ht
      · simp [hcur] at ht
        subst ht
        intro habs
        have : cur.reverse = [] := by
          simpa [String.ext_iff] using habs
        simp [hcur] at this
  | cons c cs ih =>
      intro cur t ht
      unfold pySplitCharsAux at ht
      by_cases hc : c = ' '
      · by_cases hcur : cur = []
        · simp [hc, hcur] at ht
          exact ih [] t ht
        · simp [hc, hcur] at ht
          rcases ht with ht | ht
          · subst ht
            intro habs
            have : cur.reverse = [] := by
              simpa [String.ext_iff] using habs
            simp [hcur] at this
          · exact ih [] t ht
      · simp [hc] at ht
        exact ih (c :: cur) t ht

/-- The first token of a split display name is nonempty, hence truthy. -/
theorem pySplit_head_truthy (name first : String) (rest : List String)
    (hsplit : pySplitWhitespace name = first :: rest) :
    pyTruthy (some first) = true := by
  have hne : first ≠ "" := by
    apply pySplitCharsAux_ne_empty name.data []
    rw [show pySplitCharsAux name.data [] = pySplitWhitespace name from rfl, hsplit]
    exact List.mem_cons_self first rest
  simp [pyTruthy, hne]

/-- C6: creating a task as a user whose display name's first token
matches a cached tag name case-insensitively reuses that tag's id with
no tag-creation call; with no such tag, exactly one tag-creation call is
made with the first token as its name and the returned id is attached;
if tag creation fails, the task is still created with an empty tag list
(and the run still succeeds when the task POST answers 201). -/
theorem C6_tag_resolution (cachedTags : List Tag) (env : CreateEnv)
    (name first : String) (rest : List String) (projectId : String)
    (item : TodoItem) (hsplit : pySplitWhitespace name = first :: rest) :
    (∀ tg, cachedTags.find? (fun t => pyLower t.name == pyLower first) = some tg →
      pyTruthy (some tg.id) = true →
      (asyncCreateTodoItem cachedTags env (some name) projectId item).1 =
        [ApiCall.createTask (createdBody projectId item [tg.id])]) ∧
    (cachedTags.find? (fun t => pyLower t.name == pyLower first) = none →
      ∀ i, env.tagEnv.createStatus = 201 → env.tagEnv.createdId = some i →
      pyTruthy (some i) = true →
      (asyncCreateTodoItem cachedTags env (some name) projectId item).1 =
        [ApiCall.createTag first "#4a7c59",
         ApiCall.createTask (createdBody projectId item [i])]) ∧
    (cachedTags.find? (fun t => pyLower t.name == pyLower first) = none →
      env.tagEnv.createStatus ≠ 201 →
      (asyncCreateTodoItem cachedTags env (some name) projectId item).1 =
        [ApiCall.createTag first "#4a7c59",
         ApiCall.createTask (createdBody projectId item [])] ∧
      (env.createTaskStatus = 201 →
        (asyncCreateTodoItem cachedTags env (some name) projectId item).2 =
          Except.ok ())) := by
  have hname : pyTruthy (some name) = true := by
    by_contra hfalse
    have hempty : name = "" := by
      simp [pyTruthy] at hfalse
      exact hfalse
    rw [hempty] at hsplit
    simp [pySplitWhitespace, pySplitCharsAux] at hsplit
  have hfirsttruthy : pyTruthy (some first) = true :=
    pySplit_head_truthy name first rest hsplit
  have hfirst : firstNameOf (some name) = Except.ok (some first) := by
    simp [firstNameOf, hname, hsplit]
  refine ⟨?_, ?_, ?_⟩
  · intro tg hfind htruthy
    by_cases hcs : env.createTaskStatus = 201 <;>
      simp [asyncCreateTodoItem, hfirst, hfirsttruthy, getOrCreateUserTag, hfind,
        htruthy, createdBody, hcs]
  · intro hfind i hstat hid htruthy
    by_cases hcs : env.createTaskStatus = 201 <;>
      simp [asyncCreateTodoItem, hfirst, hfirsttruthy, getOrCreateUserTag, hfind,
        hstat, hid, htruthy, createdBody, hcs]
  · intro hfind hstat
    have hstat' : (env.tagEnv.createStatus == 201) = false := by
      simp [hstat]
    by_cases hcs : env.createTaskStatus = 201 <;>
      simp [asyncCreateTodoItem, hfirst, hfirsttruthy, getOrCreateUserTag, hfind,
        hstat', createdBody, hcs]

/-- Witness for C6: user "Ada Lovelace" with cached tag "ada" reuses its
id; with no cached tags, one tag-creation call for "Ada" is made and the
new id attached. -/
theorem C6_witness :
    (asyncCreateTodoItem [{ id := "tg1", name := "ada" }] {}
      (some "Ada Lovelace") "p1" { uid := "", summary := some "task" }).1 =
      [ApiCall.createTask (createdBody "p1" { uid := "", summary := some "task" } ["tg1"])] ∧
    (asyncCreateTodoItem [] { tagEnv := { createdId := some "tgNew" } }
      (some "Ada Lovelace") "p1" { uid := "", summary := some "task" }).1 =
      [ApiCall.createTag "Ada" "#4a7c59",
       ApiCall.createTask (createdBody "p1" { uid := "", summary := some "task" } ["tgNew"])] := by
  constructor
  · exact (C6_tag_resolution [{ id := "tg1", name := "ada" }] {} "Ada Lovelace" "Ada"
      ["Lovelace"] "p1" { uid := "", summary := some "task" } (by decide)).1
      { id := "tg1", name := "ada" } (by decide) (by decide)
  · exact (C6_tag_resolution [] { tagEnv := { createdId := some "tgNew" } }
      "Ada Lovelace" "Ada" ["Lovelace"] "p1" { uid := "", summary := some "task" }
      (by decide)).2.1 (by decide) "tgNew" (by decide) (by decide) (by decide)

/-! ## Hierarchy traversal: equations and termination (C7) -/

/-- Out of fuel: the traversal has not finished. -/
theorem buildHierarchy_zero (projects : List Project) (parentId : Option String)
    (indent : Nat) (acc : List (String × String)) :
    buildHierarchy projects parentId indent acc 0 = none := by
  unfold buildHierarchy
  rfl

/-- One nesting level: filter to the children of `parentId`, sort by
name, and walk them. -/
theorem buildHierarchy_succ (projects : List Project) (parentId : Option String)
    (indent : Nat) (acc : List (String × String)) (f : Nat) :
    buildHierarchy projects parentId indent acc (f + 1) =
      buildHierarchyList projects
        (sortByName (projects.filter
          (fun p => p.parentId == parentId && !pyTruthy p.deletedAt)))
        indent acc f := by
  unfold buildHierarchy
  rfl

/-- An empty sibling list returns the accumulator. -/
theorem buildHierarchyList_nil (projects : List Project) (indent : Nat)
    (acc : List (String × String)) (fuel : Nat) :
    buildHierarchyList projects [] indent acc fuel = some acc := by
  unfold buildHierarchyList
  rfl

/-- One sibling: record its entry, recurse into its children, continue. -/
theorem buildHierarchyList_cons (projects : List Project) (p : Project)
    (ps : List Project) (indent : Nat) (acc : List (String × String))
    (fuel : Nat) :
    buildHierarchyList projects (p :: ps) indent acc fuel =
      match buildHierarchy projects (some p.id) (indent + 1)
          (dictInsert acc p.id (indentStr indent ++ p.name)) fuel with
      | none => none
      | some acc2 => buildHierarchyList projects ps indent acc2 fuel := by
  conv_lhs => unfold buildHierarchyList

/-- Insertion keeps exactly the old elements plus the new one. -/
theorem mem_insertByName (p q : Project) (l : List Project) :
    q ∈ insertByName p l ↔ q = p ∨ q ∈ l := by
  induction l with
  | nil => simp [insertByName]
  | cons r rs ih =>
      unfold insertByName
      by_cases h : p.name ≤ r.name
      · simp [h]
      · simp [h, ih]
        tauto

/-- Sorting by name keeps exactly the input's elements. -/
theorem mem_sortByName (q : Project) (l : List Project) :
    q ∈ sortByName l ↔ q ∈ l := by
  induction l with
  | nil => simp [sortByName]
  | cons p ps ih =>
      simp [sortByName, mem_insertByName, ih]

/-- Root of the malformed input: reachable from the top level. -/
def cycA : Project := { id := "a", name := "A" }

/-- Child of `cycA`; its subtree contains the duplicate-id project. -/
def cycB : Project := { id := "b", name := "B", parentId := some "a" }

/-- A project whose id duplicates `cycA`'s and whose parent is `cycB`:
its children are computed as the children of id "a", i.e. `cycB` again. -/
def cycDup : Project := { id := "a", name := "C", parentId := some "b" }

/-- A malformed project list whose parent references cycle through a
duplicated id, making the cycle reachable from the root. -/
def cycProjects : List Project := [cycA, cycB, cycDup]

/-- Once the traversal of `cycProjects` reaches parent id "a" or "b" it
alternates between the two forever: no fuel suffices. -/
theorem cyc_loop_none : ∀ fuel indent acc,
    buildHierarchy cycProjects (some "a") indent acc fuel = none ∧
    buildHierarchy cycProjects (some "b") indent acc fuel = none := by
  intro fuel
  induction fuel with
  | zero =>
      intro indent acc
      exact ⟨buildHierarchy_zero cycProjects (some "a") indent acc,
        buildHierarchy_zero cycProjects (some "b") indent acc⟩
  | succ f ih =>
      intro indent acc
      constructor
      · rw [buildHierarchy_succ]
        have hfa : sortByName (cycProjects.filter
            (fun p => p.parentId == some "a" && !pyTruthy p.deletedAt)) = [cycB] := by
          decide
        rw [hfa, buildHierarchyList_cons]
        simp only [cycB]
        rw [(ih (indent + 1) (dictInsert acc "b" (indentStr indent ++ "B"))).2]
      · rw [buildHierarchy_succ]
        have hfb : sortByName (cycProjects.filter
            (fun p => p.parentId == some "b" && !pyTruthy p.deletedAt)) = [cycDup] := by
          decide
        rw [hfb, buildHierarchyList_cons]
        simp only [cycDup]
        rw [(ih (indent + 1) (dictInsert acc "a" (indentStr indent ++ "C"))).1]

/-- The root traversal of `cycProjects` exhausts every recursion-depth
bound. -/
theorem cyc_root_none :
    ∀ fuel, buildHierarchy cycProjects none 0 [] fuel = none := by
  intro fuel
  cases fuel with
  | zero => exact buildHierarchy_zero cycProjects none 0 []
  | succ f =>
      rw [buildHierarchy_succ]
      have hroot : sortByName (cycProjects.filter
          (fun p => p.parentId == none && !pyTruthy p.deletedAt)) = [cycA] := by
        decide
      rw [hroot, buildHierarchyList_cons]
      simp only [cycA]
      rw [(cyc_loop_none f 1 (dictInsert [] "a" (indentStr 0 ++ "A"))).1]

/-- C7 counterexample: on the concrete malformed input `cycProjects`
(a parent cycle through a duplicated project id, reachable from the
root) the traversal completes under no recursion-depth bound — the
recursion never terminates. -/
theorem C7_counterexample :
    ¬ ∃ fuel result,
        buildHierarchy cycProjects none 0 [] fuel = some result := by
  rintro ⟨fuel, result, h⟩
  rw [cyc_root_none fuel] at h
  cases h

/-- The `parent_id` argument of a nested `build_hierarchy` call whose
ancestor projects are `path` (innermost first). -/
def parentOfPath : List Project → Option String
  | [] => none
  | p :: _ => some p.id

/-- The ancestor paths the recursion can realize: each element is a
project of the input, not yet on the path, whose `parentId` is the
parent argument of the remaining path. -/
inductive ValidPath (projects : List Project) : List Project → Prop
  | nil : ValidPath projects []
  | cons (p : Project) (rest : List Project) :
      p ∈ projects → p.parentId = parentOfPath rest → p ∉ rest →
      ValidPath projects rest → ValidPath projects (p :: rest)

/-- Path elements come from the input list. -/
theorem ValidPath.subset {projects path : List Project}
    (h : ValidPath projects path) : ∀ q ∈ path, q ∈ projects := by
  induction h with
  | nil => simp
  | cons p rest hp hpar hnot hrest ih =>
      intro q hq
      rcases List.mem_cons.mp hq with rfl | hq
      · exact hp
      · exact ih q hq

/-- Path elements are pairwise distinct. -/
theorem ValidPath.nodup {projects path : List Project}
    (h : ValidPath projects path) : path.Nodup := by
  induction h with
  | nil => simp
  | cons p rest hp hpar hnot hrest ih => exact List.nodup_cons.mpr ⟨hnot, ih⟩

/-- A path is no longer than the (duplicate-free) input list. -/
theorem ValidPath.length_le {projects path : List Project}
    (h : ValidPath projects path) : path.length ≤ projects.length :=
  (List.subperm_of_subset h.nodup (fun a ha => h.subset a ha)).length_le

/-- With pairwise-distinct ids, no project on a valid path has a project
outside the path as its parent target: parent links inside a path point
one step deeper only. -/
theorem ValidPath.no_parent_outside {projects : List Project}
    (hids : (projects.map Project.id).Nodup) :
    ∀ {path : List Project}, ValidPath projects path →
      ∀ c ∈ path, ∀ x, x ∈ projects → x ∉ path → c.parentId ≠ some x.id := by
  intro path h
  induction h with
  | nil => simp
  | cons p rest hp hpar hnot hrest ih =>
      intro c hc x hx hxnot
      rcases List.mem_cons.mp hc with rfl | hc
      · rw [hpar]
        cases rest with
        | nil => simp [parentOfPath]
        | cons r rs =>
            intro heq
            have hrid : r.id = x.id := by
              simpa [parentOfPath] using heq
            have hr : r ∈ projects := hrest.subset r (List.mem_cons_self r rs)
            have hrx : r = x := List.inj_on_of_nodup_map hids hr hx hrid
            exact hxnot (List.mem_cons_of_mem _ (hrx ▸ List.mem_cons_self r rs))
      · exact ih c hc x hx (fun hxr => hxnot (List.mem_cons_of_mem _ hxr))

/-- With pairwise-distinct ids, a child of the current parent argument is
never an ancestor already on the path: the recursion cannot revisit. -/
theorem ValidPath.child_not_mem {projects : List Project}
    (hids : (projects.map Project.id).Nodup) {path : List Project}
    (h : ValidPath projects path) (c : Project)
    (hc : c.parentId = parentOfPath path) : c ∉ path := by
  cases h with
  | nil => simp
  | cons p rest hp hpar hnot hrest =>
      intro hmem
      rcases List.mem_cons.mp hmem with rfl | hmem
      · have hc2 : parentOfPath rest = some c.id := by
          rw [← hpar]
          simpa [parentOfPath] using hc
        cases rest with
        | nil => simp [parentOfPath] at hc2
        | cons r rs =>
            have hrid : r.id = c.id := by
              simpa [parentOfPath] using hc2
            have hr : r ∈ projects := hrest.subset r (List.mem_cons_self r rs)
            have hrc : r = c := List.inj_on_of_nodup_map hids hr hp hrid
            exact hnot (hrc ▸ List.mem_cons_self r rs)
      · exact ValidPath.no_parent_outside hids hrest c hmem p hp hnot
          (by simpa [parentOfPath] using hc)

/-- With pairwise-distinct ids every path of nested calls is duplicate
free, so a fuel exceeding the input length is never exhausted. -/
theorem buildHierarchy_total_of_nodup (projects : List Project)
    (hids : (projects.map Project.id).Nodup) :
    ∀ fuel path, ValidPath projects path →
      projects.length - path.length < fuel →
      ∀ indent acc,
        (buildHierarchy projects (parentOfPath path) indent acc fuel).isSome = true := by
  intro fuel
  induction fuel with
  | zero =>
      intro path _ hlt indent acc
      exact absurd hlt (Nat.not_lt_zero _)
  | succ f ih =>
      intro path hpath hlt indent acc
      rw [buildHierarchy_succ]
      have key : ∀ cs, (∀ c ∈ cs, c ∈ projects ∧ c.parentId = parentOfPath path) →
          ∀ acc2, (buildHierarchyList projects cs indent acc2 f).isSome = true := by
        intro cs
        induction cs with
        | nil =>
            intro _ acc2
            rw [buildHierarchyList_nil]
            rfl
        | cons c cs ihcs =>
            intro hmem acc2
            obtain ⟨hcin, hcpar⟩ := hmem c (List.mem_cons_self c cs)
            have hcnot : c ∉ path := ValidPath.child_not_mem hids hpath c hcpar
            have hvp : ValidPath projects (c :: path) :=
              ValidPath.cons c path hcin hcpar hcnot hpath
            have hlen : (c :: path).length ≤ projects.length := hvp.length_le
            have hflt : projects.length - (c :: path).length < f := by
              simp only [List.length_cons] at hlen ⊢
              omega
            have hrec := ih (c :: path) hvp hflt (indent + 1)
              (dictInsert acc2 c.id (indentStr indent ++ c.name))
            have hrec' : (buildHierarchy projects (some c.id) (indent + 1)
                (dictInsert acc2 c.id (indentStr indent ++ c.name)) f).isSome = true := hrec
            obtain ⟨r, hr⟩ := Option.isSome_iff_exists.mp hrec'
            rw [buildHierarchyList_cons, hr]
            exact ihcs (fun x hx => hmem x (List.mem_cons_of_mem c hx)) r
      apply key
      intro c hc
      rw [mem_sortByName, List.mem_filter] at hc
      obtain ⟨hcin, hpred⟩ := hc
      refine ⟨hcin, ?_⟩
      exact eq_of_beq ((Bool.and_eq_true _ _).mp hpred).1

/-- C7 (amended): the traversal terminates on every input whose project
ids are pairwise distinct — including inputs whose `parentId` references
form a cycle (such as a project whose parent is itself), since with
distinct ids no cycle member is reachable from the roots.  (With a
duplicated project id a reachable parent cycle makes the recursion
diverge: see the counterexample.) -/
theorem C7_hierarchy_terminates (projects : List Project)
    (hids : (projects.map Project.id).Nodup) :
    ∃ result,
      buildHierarchy projects none 0 [] (projects.length + 1) = some result := by
  have h := buildHierarchy_total_of_nodup projects hids (projects.length + 1) []
    ValidPath.nil (by omega) 0 []
  exact Option.isSome_iff_exists.mp h

/-- Witness for C7 (amended): an input containing a self-parent project
(distinct ids) still terminates. -/
theorem C7_witness :
    ∃ result, buildHierarchy
      [{ id := "a", name := "A" },
       { id := "b", name := "B", parentId := some "a" },
       { id := "c", name := "C", parentId := some "c" }] none 0 [] 4 =
      some result :=
  C7_hierarchy_terminates
    [{ id := "a", name := "A" },
     { id := "b", name := "B", parentId := some "a" },
     { id := "c", name := "C", parentId := some "c" }] (by decide)

end TasksIntegration
